import Mathlib

/-!
Verification of the socketcan-demo programs (socketcan-raw-demo.c,
socketcan-bcm-demo.c, socketcan-cyclic-demo.c) against their
specification.  The C programs are shallowly embedded: a CAN frame is a
record, the per-iteration I/O outcomes (value of the `run` flag at the
loop head, result of the blocking read, result of the blocking write)
are supplied by an environment list, and each `main` is a function from
that environment to the list of observable events (syscalls, stdout
lines, stderr diagnostics) plus the process outcome.
-/

/-- Linux errno value for an interrupted system call. -/
def EINTR : Nat := 4

/-- C `EXIT_SUCCESS`. -/
def EXIT_SUCCESS : Nat := 0

/-- C `EXIT_FAILURE`. -/
def EXIT_FAILURE : Nat := 1

/-- `MSGID` of socketcan-raw-demo.c (`0x0CC`). -/
def MSGID_raw : Nat := 0x0CC

/-- `MSGID` of socketcan-bcm-demo.c (`0x0BC`). -/
def MSGID_bcm : Nat := 0x0BC

/-- `MSGID` of socketcan-cyclic-demo.c (`0x0C0`). -/
def MSGID_cyclic : Nat := 0x0C0

/-- `MSGLEN` of socketcan-cyclic-demo.c. -/
def MSGLEN : Nat := 3

/-- `NFRAMES` of socketcan-cyclic-demo.c. -/
def NFRAMES : Nat := 4

/-- Broadcast-manager opcode `TX_SETUP` (linux/can/bcm.h). -/
def TX_SETUP : Nat := 1

/-- Broadcast-manager opcode `TX_SEND` (linux/can/bcm.h). -/
def TX_SEND : Nat := 4

/-- Broadcast-manager opcode `RX_SETUP` (linux/can/bcm.h). -/
def RX_SETUP : Nat := 5

/-- Broadcast-manager flag `SETTIMER` (linux/can/bcm.h). -/
def SETTIMER : Nat := 1

/-- Broadcast-manager flag `STARTTIMER` (linux/can/bcm.h). -/
def STARTTIMER : Nat := 2

/-- `struct can_frame`: a 32-bit identifier, a length field and the fixed
8-byte payload buffer (`data` always lists all 8 buffer bytes; only the
first `len` are meaningful). -/
structure Frame where
  can_id : Nat
  len : Nat
  data : List Nat
  deriving DecidableEq, Repr

/-- `struct bcm_msg_head`: opcode, identifier, flags, count, the two
intervals and the frame count. -/
structure BcmHead where
  opcode : Nat
  can_id : Nat
  flags : Nat
  count : Nat
  ival1_sec : Nat
  ival1_usec : Nat
  ival2_sec : Nat
  ival2_usec : Nat
  nframes : Nat
  deriving DecidableEq, Repr

/-- A broadcast-manager message: the command head followed by the packed
frames. -/
structure CanMsg where
  head : BcmHead
  frames : List Frame
  deriving DecidableEq, Repr

/-- Uppercase hexadecimal digit for a value below 16 (as printed by
`printf %X`). -/
def hexDigit (n : Nat) : Char :=
  if n < 10 then Char.ofNat (48 + n) else Char.ofNat (55 + n)

/-- Fuel-driven uppercase hexadecimal rendering of a natural number. -/
def toHexAux : Nat → Nat → List Char
  | 0, _ => []
  | fuel + 1, n =>
    if n < 16 then [hexDigit n]
    else toHexAux fuel (n / 16) ++ [hexDigit (n % 16)]

/-- Uppercase hexadecimal rendering, as `printf %X` produces it. -/
def toHexUpper (n : Nat) : List Char := toHexAux (n + 1) n

/-- Decimal digit characters of a natural number (`printf %u`). -/
def toDecAux : Nat → Nat → List Char
  | 0, _ => []
  | fuel + 1, n =>
    if n < 10 then [Char.ofNat (48 + n)]
    else toDecAux fuel (n / 10) ++ [Char.ofNat (48 + n % 10)]

/-- Decimal rendering, as `printf %u` produces it. -/
def toDec (n : Nat) : List Char := toDecAux (n + 1) n

/-- Zero padding on the left up to width `w`, as `printf %0wX` does. -/
def hexWidth (w n : Nat) : List Char :=
  List.replicate (w - (toHexUpper n).length) '0' ++ toHexUpper n

/-- The characters printed by `print_can_frame`: the format string
`"%03X  [%u] "` applied to the identifier and length, followed by
`" %02X"` for each of the first `len` payload bytes.  The function is
identical in socketcan-raw-demo.c and socketcan-bcm-demo.c. -/
def print_can_frame (f : Frame) : List Char :=
  hexWidth 3 f.can_id ++ "  [".data ++ toDec f.len ++ "] ".data ++
    (f.data.take f.len).flatMap (fun b => ' ' :: hexWidth 2 b)

/-- The per-byte increment loop
`for (i = 0; i < frame.len; i++) frame.data[i] += 1;`:
add 1 modulo 256 (unsigned char wrap-around) to each of the first `n`
list entries. -/
def incFirst : Nat → List Nat → List Nat
  | 0, l => l
  | _ + 1, [] => []
  | n + 1, b :: bs => (b + 1) % 256 :: incFirst n bs

/-- The payload-increment transform applied by both echo loops (the body
of the increment `for` loop, acting on the whole frame). -/
def increment_payload (f : Frame) : Frame :=
  { f with data := incFirst f.len f.data }

/-- Result of a blocking `read`. -/
inductive RdRes where
  | ok (f : Frame)
  | err (e : Nat)
  deriving DecidableEq, Repr

/-- Result of a blocking `read` on the broadcast-manager socket: the
kernel fills the whole `can_msg` buffer (head plus `frames[0]`). -/
inductive BcmRd where
  | ok (head : BcmHead) (frame0 : Frame)
  | err (e : Nat)
  deriving DecidableEq, Repr

/-- Result of a blocking `write` or of `close`. -/
inductive WrRes where
  | ok
  | err (e : Nat)
  deriving DecidableEq, Repr

/-- Observable events of one process run: syscalls on the CAN socket,
stdout lines, stderr diagnostics from `error(_, errno, op)`, the signal
masking in `cleanup`, the `close` call, and `sigsuspend`. -/
inductive Ev where
  | readRaw (r : RdRes)
  | readBcm (r : BcmRd)
  | outLine (s : List Char)
  | writeRaw (f : Frame) (r : WrRes)
  | writeBcm (m : CanMsg) (r : WrRes)
  | diag (op : List Char) (e : Nat)
  | sigmask
  | closeFd (r : WrRes)
  | suspend
  deriving DecidableEq, Repr

/-- How an echo loop was left. -/
inductive LoopExit where
  | flagClear
  | ioError (op : List Char) (e : Nat)
  | exhausted
  deriving DecidableEq, Repr

/-- Outcome of a run: `exited code`, or still running (the supplied
environment did not drive the loop to an exit). -/
inductive ProcOut where
  | exited (code : Nat)
  | running
  deriving DecidableEq, Repr

/-- The operation name `"read"` passed to `error`. -/
def opRead : List Char := "read".data

/-- The operation name `"write"` passed to `error`. -/
def opWrite : List Char := "write".data

/-- The operation name `"close"` passed to `error`. -/
def opClose : List Char := "close".data

/-- The `"RX:  "` line tag. -/
def rxTag : List Char := "RX:  ".data

/-- The `"TX:  "` line tag. -/
def txTag : List Char := "TX:  ".data

/-- The final `"Goodbye!"` line. -/
def goodbyeLine : List Char := "Goodbye!".data

/-- The raw loop's transform of a received frame: the identifier is
overwritten with `MSGID` and every payload byte is incremented. -/
def rawTxFrame (f : Frame) : Frame :=
  increment_payload { f with can_id := MSGID_raw }

/-- Environment of one raw-demo loop iteration: the value of the `run`
flag observed at the loop head, then the outcomes of the blocking
`read` and (if reached) the blocking `write`. -/
structure RawIter where
  run : Bool
  rd : RdRes
  wr : WrRes
  deriving DecidableEq, Repr

/-- The `while (run)` loop of socketcan-raw-demo.c `main`: read a frame,
print it with the RX tag, overwrite its identifier with `MSGID`,
increment every payload byte, write it back and print it with the TX
tag.  `EINTR` on read or write restarts the loop; any other failure
prints a diagnostic and breaks. -/
def rawLoop : List RawIter → List Ev × LoopExit
  | [] => ([], .exhausted)
  | it :: rest =>
    if it.run then
      match it.rd with
      | .err e =>
        if e = EINTR then
          let r := rawLoop rest
          (Ev.readRaw (.err e) :: r.1, r.2)
        else
          ([Ev.readRaw (.err e), Ev.diag opRead e], .ioError opRead e)
      | .ok f =>
        let f2 := rawTxFrame f
        let pre : List Ev :=
          [Ev.readRaw (.ok f), Ev.outLine (rxTag ++ print_can_frame f)]
        match it.wr with
        | .err e =>
          if e = EINTR then
            let r := rawLoop rest
            (pre ++ Ev.writeRaw f2 (.err e) :: r.1, r.2)
          else
            (pre ++ [Ev.writeRaw f2 (.err e), Ev.diag opWrite e],
             .ioError opWrite e)
        | .ok =>
          let r := rawLoop rest
          (pre ++ Ev.writeRaw f2 .ok ::
             Ev.outLine (txTag ++ print_can_frame f2) :: r.1, r.2)
    else ([], .flagClear)

/-- The `cleanup` function shared by all three programs: block SIGINT and
SIGTERM, then `close` the socket; on close failure,
`error(EXIT_FAILURE, errno, "close")` prints a diagnostic and exits. -/
def cleanup : WrRes → List Ev × Option Nat
  | .ok => ([Ev.sigmask, Ev.closeFd .ok], none)
  | .err e =>
    ([Ev.sigmask, Ev.closeFd (.err e), Ev.diag opClose e],
     some EXIT_FAILURE)

/-- What happens after an echo loop exits: `cleanup(sfd)`, then
`puts("Goodbye!")` and `return EXIT_SUCCESS` (reached only when the
close succeeded, since a failed close exits inside `error`). -/
def afterLoop (tr : List Ev) (cr : WrRes) : List Ev × ProcOut :=
  match cleanup cr with
  | (cevs, some code) => (tr ++ cevs, .exited code)
  | (cevs, none) =>
    (tr ++ cevs ++ [Ev.outLine goodbyeLine], .exited EXIT_SUCCESS)

/-- socketcan-raw-demo.c `main` after `init_socket`, as a function of the
loop environment and the close outcome. -/
def rawMain (w : List RawIter) (cr : WrRes) : List Ev × ProcOut :=
  match (rawLoop w).2 with
  | .exhausted => ((rawLoop w).1, .running)
  | .flagClear => afterLoop (rawLoop w).1 cr
  | .ioError _ _ => afterLoop (rawLoop w).1 cr

/-- An all-zero frame (the `memset(&msg, 0, sizeof(msg))` image of the
frame buffer). -/
def zeroFrame : Frame := { can_id := 0, len := 0, data := List.replicate 8 0 }

/-- An all-zero `bcm_msg_head`. -/
def zeroHead : BcmHead :=
  { opcode := 0, can_id := 0, flags := 0, count := 0, ival1_sec := 0,
    ival1_usec := 0, ival2_sec := 0, ival2_usec := 0, nframes := 0 }

/-- The RX filter subscription message of socketcan-bcm-demo.c: the
zeroed buffer with `opcode = RX_SETUP` and `can_id = 0x123`. -/
def rxSetupMsg : CanMsg :=
  { head := { zeroHead with opcode := RX_SETUP, can_id := 0x123 },
    frames := [zeroFrame] }

/-- The bcm loop's transform of a received frame: the identifier is
overwritten with `MSGID` and every payload byte is incremented. -/
def bcmTxFrame (f0 : Frame) : Frame :=
  increment_payload { f0 with can_id := MSGID_bcm }

/-- The one-shot transmission message the bcm loop writes back: the head
it just read with `opcode = TX_SEND`, head identifier 0 and frame count
1, wrapping the single transformed frame. -/
def bcmTxMsg (h : BcmHead) (f0 : Frame) : CanMsg :=
  { head := { h with opcode := TX_SEND, can_id := 0, nframes := 1 },
    frames := [bcmTxFrame f0] }

/-- Environment of one bcm-demo loop iteration. -/
structure BcmIter where
  run : Bool
  rd : BcmRd
  wr : WrRes
  deriving DecidableEq, Repr

/-- The `while (run)` loop of socketcan-bcm-demo.c `main`: read a
broadcast-manager message into the buffer, print `frames[0]` with the
RX tag, overwrite its identifier with `MSGID`, increment its payload
bytes, rewrite the head for a one-shot `TX_SEND` (opcode `TX_SEND`,
head identifier 0, one frame) and write the buffer back, then print the
transmitted frame.  Same `EINTR`-continue / other-error-break policy as
the raw loop. -/
def bcmLoop : List BcmIter → List Ev × LoopExit
  | [] => ([], .exhausted)
  | it :: rest =>
    if it.run then
      match it.rd with
      | .err e =>
        if e = EINTR then
          let r := bcmLoop rest
          (Ev.readBcm (.err e) :: r.1, r.2)
        else
          ([Ev.readBcm (.err e), Ev.diag opRead e], .ioError opRead e)
      | .ok h f0 =>
        let f2 := bcmTxFrame f0
        let txMsg : CanMsg := bcmTxMsg h f0
        let pre : List Ev :=
          [Ev.readBcm (.ok h f0), Ev.outLine (rxTag ++ print_can_frame f0)]
        match it.wr with
        | .err e =>
          if e = EINTR then
            let r := bcmLoop rest
            (pre ++ Ev.writeBcm txMsg (.err e) :: r.1, r.2)
          else
            (pre ++ [Ev.writeBcm txMsg (.err e), Ev.diag opWrite e],
             .ioError opWrite e)
        | .ok =>
          let r := bcmLoop rest
          (pre ++ Ev.writeBcm txMsg .ok ::
             Ev.outLine (txTag ++ print_can_frame f2) :: r.1, r.2)
    else ([], .flagClear)

/-- socketcan-bcm-demo.c `main` after `init_socket`: write the `RX_SETUP`
subscription (fatal on failure), then run the echo loop, then clean
up. -/
def bcmMain (sw : WrRes) (w : List BcmIter) (cr : WrRes) :
    List Ev × ProcOut :=
  match sw with
  | .err e =>
    ([Ev.writeBcm rxSetupMsg (.err e), Ev.diag opWrite e],
     .exited EXIT_FAILURE)
  | .ok =>
    match (bcmLoop w).2 with
    | .exhausted => (Ev.writeBcm rxSetupMsg .ok :: (bcmLoop w).1, .running)
    | .flagClear => afterLoop (Ev.writeBcm rxSetupMsg .ok :: (bcmLoop w).1) cr
    | .ioError _ _ =>
      afterLoop (Ev.writeBcm rxSetupMsg .ok :: (bcmLoop w).1) cr

/-- The four cyclic frames of socketcan-cyclic-demo.c: identifiers
`MSGID + i`, length `MSGLEN`, the first `MSGLEN` buffer bytes set to `i`
by `memset(frame->data, i, MSGLEN)` and the rest left zero. -/
def cyclicFrames : List Frame :=
  (List.range NFRAMES).map fun i =>
    { can_id := MSGID_cyclic + i, len := MSGLEN,
      data := List.replicate MSGLEN i ++ List.replicate (8 - MSGLEN) 0 }

/-- The single `TX_SETUP` registration message of socketcan-cyclic-demo.c:
zeroed buffer, opcode `TX_SETUP`, head identifier 0, flags
`SETTIMER | STARTTIMER`, `NFRAMES` frames, count 0, `ival2` set to
1 s 200000 us (this is the head; the frames follow below). -/
def cyclicSetupHead : BcmHead :=
  { zeroHead with
    opcode := TX_SETUP
    can_id := 0
    flags := SETTIMER ||| STARTTIMER
    nframes := NFRAMES
    count := 0
    ival2_sec := 1
    ival2_usec := 200000 }

/-- The whole `TX_SETUP` message: the head above and the four cyclic
frames. -/
def cyclicSetupMsg : CanMsg :=
  { head := cyclicSetupHead, frames := cyclicFrames }

/-- The informational startup text printed by socketcan-cyclic-demo.c. -/
def cyclicInfoText (iface : List Char) : List Char :=
  "Cyclic messages registed with SocketCAN!\nUse a tool such as \"candump ".data
    ++ iface ++
    "\" to view the messages.\nThese messages will continue to transmit so long as the socket\nused to communicate with SocketCAN remains open. In other words,\nclose this program with SIGINT or SIGTERM in order to gracefully\nstop transmitting.\n".data

/-- socketcan-cyclic-demo.c `main` after `init_socket`: one `TX_SETUP`
write (fatal on failure), the informational message, `sigsuspend` until
SIGINT or SIGTERM, then cleanup and goodbye. -/
def cyclicMain (iface : List Char) (sw : WrRes) (cr : WrRes) :
    List Ev × ProcOut :=
  match sw with
  | .err e =>
    ([Ev.writeBcm cyclicSetupMsg (.err e), Ev.diag opWrite e],
     .exited EXIT_FAILURE)
  | .ok =>
    afterLoop
      [Ev.writeBcm cyclicSetupMsg .ok, Ev.outLine (cyclicInfoText iface),
       Ev.suspend] cr

/-- Is this event a `write` on the CAN socket? -/
def isChanWrite : Ev → Bool
  | .writeRaw _ _ => true
  | .writeBcm _ _ => true
  | _ => false

/-- Is this event a `read` on the CAN socket? -/
def isChanRead : Ev → Bool
  | .readRaw _ => true
  | .readBcm _ => true
  | _ => false

/-- Is this event the `close` call? -/
def isCloseEv : Ev → Bool
  | .closeFd _ => true
  | _ => false

/-- Is this event the signal masking performed inside `cleanup`? -/
def isSigmaskEv : Ev → Bool
  | .sigmask => true
  | _ => false

/-- Is this event a raw-socket read? -/
def isReadRawEv : Ev → Bool
  | .readRaw _ => true
  | _ => false

/-- Is this event a broadcast-manager read? -/
def isReadBcmEv : Ev → Bool
  | .readBcm _ => true
  | _ => false

/-- Is this event a raw-socket write that returned `EINTR`? -/
def isWriteEintrRaw : Ev → Bool
  | .writeRaw _ (.err e) => e == EINTR
  | _ => false

/-- Is this event a broadcast-manager write that returned `EINTR`? -/
def isWriteEintrBcm : Ev → Bool
  | .writeBcm _ (.err e) => e == EINTR
  | _ => false

/-- Does a later event write the very same raw frame again? -/
def laterRawWriteOf (f : Frame) : List Ev → Bool
  | [] => false
  | Ev.writeRaw g _ :: rest => g == f || laterRawWriteOf f rest
  | _ :: rest => laterRawWriteOf f rest

/-- Does a later event write the very same broadcast-manager message
again? -/
def laterBcmWriteOf (m : CanMsg) : List Ev → Bool
  | [] => false
  | Ev.writeBcm m2 _ :: rest => m2 == m || laterBcmWriteOf m rest
  | _ :: rest => laterBcmWriteOf m rest

/-- The retry discipline claimed for the raw write: every write that
returns `EINTR` is followed, later in the trace, by another write of
the same frame. -/
def c1RetryRawB : List Ev → Bool
  | [] => true
  | Ev.writeRaw f (.err e) :: rest =>
    (bne e EINTR || laterRawWriteOf f rest) && c1RetryRawB rest
  | _ :: rest => c1RetryRawB rest

/-- The retry discipline claimed for the broadcast-manager write: every
write that returns `EINTR` is followed by another write of the same
message. -/
def c1RetryBcmB : List Ev → Bool
  | [] => true
  | Ev.writeBcm m (.err e) :: rest =>
    (bne e EINTR || laterBcmWriteOf m rest) && c1RetryBcmB rest
  | _ :: rest => c1RetryBcmB rest

/-- What the raw loop actually does with an interrupted write: the very
next event, when there is one, is a fresh read. -/
def abandonRawB : List Ev → Bool
  | e :: e2 :: rest =>
    (!isWriteEintrRaw e || isReadRawEv e2) && abandonRawB (e2 :: rest)
  | _ => true

/-- What the broadcast-manager loop actually does with an interrupted
write: the very next event, when there is one, is a fresh read. -/
def abandonBcmB : List Ev → Bool
  | e :: e2 :: rest =>
    (!isWriteEintrBcm e || isReadBcmEv e2) && abandonBcmB (e2 :: rest)
  | _ => true

/-- Did some read or write fail with a non-`EINTR` error (the diagnostics
named `read` or `write`)? -/
def hasIoDiagB (tr : List Ev) : Bool :=
  tr.any fun e =>
    match e with
    | .diag op _ => decide (op = opRead ∨ op = opWrite)
    | _ => false

/-- Did the run end in a failure exit status? -/
def isFailExitB : ProcOut → Bool
  | .exited c => bne c 0
  | .running => false

/-- Exit code `main` returns as a function of the close outcome. -/
def exitOf : WrRes → Nat
  | .ok => EXIT_SUCCESS
  | .err _ => EXIT_FAILURE

/-- Did the `close` call fail? -/
def hasCloseErrB (tr : List Ev) : Bool :=
  tr.any fun e =>
    match e with
    | .closeFd (.err _) => true
    | _ => false

/-- Was a diagnostic naming the close operation produced? -/
def hasCloseDiagB (tr : List Ev) : Bool :=
  tr.any fun e =>
    match e with
    | .diag op _ => decide (op = opClose)
    | _ => false

/-- Was the final `"Goodbye!"` line printed? -/
def hasGoodbyeB (tr : List Ev) : Bool :=
  tr.any fun e => decide (e = Ev.outLine goodbyeLine)

/-- Is this event a write of a message whose opcode is `RX_SETUP`? -/
def isRxSetupWrite : Ev → Bool
  | .writeBcm m _ => decide (m.head.opcode = RX_SETUP)
  | _ => false

/-- Uppercase hexadecimal digit character? -/
def isHexUpper (c : Char) : Bool :=
  (48 ≤ c.toNat && c.toNat ≤ 57) || (65 ≤ c.toNat && c.toNat ≤ 70)

/-- The byte section of a rendered frame when each byte value is one
space-prefixed two-character group. -/
def byteTriples (bs : List (Char × Char)) : List Char :=
  bs.flatMap fun p => [' ', p.1, p.2]

/-- The output pattern exactly as the specification claims it: 3 or more
uppercase hex digits, two spaces, `[`, the decimal length, `]`, then
exactly `len` space-prefixed two-digit uppercase hex byte values, and
nothing else. -/
def c5ShapeClaimed (len : Nat) (s : List Char) : Prop :=
  ∃ pre bs, 3 ≤ pre.length ∧ (∀ c ∈ pre, isHexUpper c = true) ∧
    bs.length = len ∧
    (∀ p ∈ bs, isHexUpper (Prod.fst p) = true ∧
      isHexUpper (Prod.snd p) = true) ∧
    s = pre ++ "  [".data ++ toDec len ++ "]".data ++ byteTriples bs

/-- The output pattern the code actually produces: identical to the
claimed one except that one further space separates `]` from the byte
values (the trailing space of the `"%03X  [%u] "` format string). -/
def c5ShapeActual (len : Nat) (s : List Char) : Prop :=
  ∃ pre bs, 3 ≤ pre.length ∧ (∀ c ∈ pre, isHexUpper c = true) ∧
    bs.length = len ∧
    (∀ p ∈ bs, isHexUpper (Prod.fst p) = true ∧
      isHexUpper (Prod.snd p) = true) ∧
    s = pre ++ "  [".data ++ toDec len ++ "] ".data ++ byteTriples bs

/-- The frame of the raw-echo example scenario. -/
def c3InFrame : Frame :=
  { can_id := 0x456, len := 2, data := [0x10, 0x20, 0, 0, 0, 0, 0, 0] }

/-- The transformed frame of the raw-echo example scenario. -/
def c3OutFrame : Frame :=
  { can_id := 0x0CC, len := 2, data := [0x11, 0x21, 0, 0, 0, 0, 0, 0] }

/-- Environment for the raw-echo example scenario: one iteration, flag
still set, the example frame read successfully, write succeeds. -/
def c3World : List RawIter :=
  [{ run := true, rd := .ok c3InFrame, wr := .ok }]

/-- First frame of the interrupted-write counterexample run. -/
def c1FrameA : Frame :=
  { can_id := 0x100, len := 1, data := [5, 0, 0, 0, 0, 0, 0, 0] }

/-- Second frame of the interrupted-write counterexample run. -/
def c1FrameB : Frame :=
  { can_id := 0x200, len := 1, data := [7, 0, 0, 0, 0, 0, 0, 0] }

/-- Environment of the interrupted-write counterexample run: the first
write returns `EINTR`, the next iteration reads a different frame and
its write succeeds. -/
def c1World : List RawIter :=
  [{ run := true, rd := .ok c1FrameA, wr := .err EINTR },
   { run := true, rd := .ok c1FrameB, wr := .ok }]

/-- Environment of the I/O-error counterexample run: the first read
fails with `EIO` (5). -/
def c2World : List RawIter :=
  [{ run := true, rd := .err 5, wr := .ok }]

/-- A raw-loop iteration that observes the shutdown flag already clear. -/
def haltIter : RawIter := { run := false, rd := .err 0, wr := .ok }

/-- A bcm-loop iteration that observes the shutdown flag already clear. -/
def bcmHaltIter : BcmIter := { run := false, rd := .err 0, wr := .ok }

/-- A frame with zero payload length, used to refute the claimed render
pattern (its rendering ends in the format string's trailing space). -/
def c5ZeroFrame : Frame :=
  { can_id := 0x123, len := 0, data := List.replicate 8 0 }


/-- The raw loop's trace, when nonempty, begins with a read event. -/
theorem rawLoop_starts_with_read (w : List RawIter) :
    (rawLoop w).1 = [] ∨ ∃ r t, (rawLoop w).1 = Ev.readRaw r :: t := by
  cases w with
  | nil => exact Or.inl rfl
  | cons it rest =>
    rcases Bool.eq_false_or_eq_true it.run with hr | hr
    · cases hrd : it.rd with
      | err e =>
        by_cases he : e = EINTR
        · exact Or.inr ⟨.err e, (rawLoop rest).1,
            by simp [rawLoop, hr, hrd, he]⟩
        · exact Or.inr ⟨.err e, [Ev.diag opRead e],
            by simp [rawLoop, hr, hrd, he]⟩
      | ok f =>
        cases hwr : it.wr with
        | err e =>
          by_cases he : e = EINTR
          · exact Or.inr ⟨.ok f,
              Ev.outLine (rxTag ++ print_can_frame f) ::
                Ev.writeRaw (rawTxFrame f) (.err e) :: (rawLoop rest).1,
              by simp [rawLoop, hr, hrd, hwr, he]⟩
          · exact Or.inr ⟨.ok f,
              [Ev.outLine (rxTag ++ print_can_frame f),
               Ev.writeRaw (rawTxFrame f) (.err e), Ev.diag opWrite e],
              by simp [rawLoop, hr, hrd, hwr, he]⟩
        | ok =>
          exact Or.inr ⟨.ok f,
            Ev.outLine (rxTag ++ print_can_frame f) ::
              Ev.writeRaw (rawTxFrame f) .ok ::
                Ev.outLine (txTag ++ print_can_frame (rawTxFrame f)) ::
                  (rawLoop rest).1,
            by simp [rawLoop, hr, hrd, hwr]⟩
    · exact Or.inl (by simp [rawLoop, hr])

/-- The bcm loop's trace, when nonempty, begins with a read event. -/
theorem bcmLoop_starts_with_read (w : List BcmIter) :
    (bcmLoop w).1 = [] ∨ ∃ r t, (bcmLoop w).1 = Ev.readBcm r :: t := by
  cases w with
  | nil => exact Or.inl rfl
  | cons it rest =>
    rcases Bool.eq_false_or_eq_true it.run with hr | hr
    · cases hrd : it.rd with
      | err e =>
        by_cases he : e = EINTR
        · exact Or.inr ⟨.err e, (bcmLoop rest).1,
            by simp [bcmLoop, hr, hrd, he]⟩
        · exact Or.inr ⟨.err e, [Ev.diag opRead e],
            by simp [bcmLoop, hr, hrd, he]⟩
      | ok h f0 =>
        cases hwr : it.wr with
        | err e =>
          by_cases he : e = EINTR
          · exact Or.inr ⟨.ok h f0,
              Ev.outLine (rxTag ++ print_can_frame f0) ::
                Ev.writeBcm (bcmTxMsg h f0) (.err e) :: (bcmLoop rest).1,
              by simp [bcmLoop, hr, hrd, hwr, he]⟩
          · exact Or.inr ⟨.ok h f0,
              [Ev.outLine (rxTag ++ print_can_frame f0),
               Ev.writeBcm (bcmTxMsg h f0) (.err e), Ev.diag opWrite e],
              by simp [bcmLoop, hr, hrd, hwr, he]⟩
        | ok =>
          exact Or.inr ⟨.ok h f0,
            Ev.outLine (rxTag ++ print_can_frame f0) ::
              Ev.writeBcm (bcmTxMsg h f0) .ok ::
                Ev.outLine (txTag ++ print_can_frame (bcmTxFrame f0)) ::
                  (bcmLoop rest).1,
            by simp [bcmLoop, hr, hrd, hwr]⟩
    · exact Or.inl (by simp [bcmLoop, hr])

/-- Prepending a non-interrupted-write event preserves the abandonment
discipline. -/
theorem abandonRaw_cons_safe (e : Ev) (l : List Ev)
    (h1 : isWriteEintrRaw e = false) (h2 : abandonRawB l = true) :
    abandonRawB (e :: l) = true := by
  cases l with
  | nil => rfl
  | cons x t => simp [abandonRawB, h1, h2]

/-- Prepending any event to a trace that starts with a read (or is empty)
preserves the abandonment discipline. -/
theorem abandonRaw_cons_read (e : Ev) (l : List Ev)
    (h : l = [] ∨ ∃ r t, l = Ev.readRaw r :: t)
    (h2 : abandonRawB l = true) : abandonRawB (e :: l) = true := by
  rcases h with rfl | ⟨r, t, rfl⟩
  · rfl
  · simp [abandonRawB, isReadRawEv] at h2 ⊢
    exact h2

/-- bcm version of `abandonRaw_cons_safe`. -/
theorem abandonBcm_cons_safe (e : Ev) (l : List Ev)
    (h1 : isWriteEintrBcm e = false) (h2 : abandonBcmB l = true) :
    abandonBcmB (e :: l) = true := by
  cases l with
  | nil => rfl
  | cons x t => simp [abandonBcmB, h1, h2]

/-- bcm version of `abandonRaw_cons_read`. -/
theorem abandonBcm_cons_read (e : Ev) (l : List Ev)
    (h : l = [] ∨ ∃ r t, l = Ev.readBcm r :: t)
    (h2 : abandonBcmB l = true) : abandonBcmB (e :: l) = true := by
  rcases h with rfl | ⟨r, t, rfl⟩
  · rfl
  · simp [abandonBcmB, isReadBcmEv] at h2 ⊢
    exact h2

/-- C1 (counterexample): it is not the case that in the raw and
filtered-echo sessions every write returning `EINTR` is later retried
with the same transformed frame.  In the concrete run `c1World` the
first transformed frame's write returns `EINTR` and that frame is never
written again: the loop instead restarts with a fresh read. -/
theorem c1_counterexample :
    ¬ ((∀ w, c1RetryRawB (rawLoop w).1 = true) ∧
       (∀ w, c1RetryBcmB (bcmLoop w).1 = true)) :=
  fun h => absurd (h.1 c1World) (by decide)

/-- C1 (amended): in the raw and filtered-echo sessions, a write that
returns `EINTR` is abandoned, not retried: whenever a write event with
an `EINTR` result has a successor event in the trace, that successor is
a fresh blocking read (the loop's `continue` returns to the read at the
top of the loop, dropping the transformed frame). -/
theorem c1_eintr_write_abandoned :
    (∀ w, abandonRawB (rawLoop w).1 = true) ∧
    (∀ w, abandonBcmB (bcmLoop w).1 = true) := by
  constructor
  · intro w
    induction w with
    | nil => rfl
    | cons it rest ih =>
      rcases Bool.eq_false_or_eq_true it.run with hr | hr
      · cases hrd : it.rd with
        | err e =>
          by_cases he : e = EINTR
          · have ht : (rawLoop (it :: rest)).1 =
                Ev.readRaw (.err e) :: (rawLoop rest).1 := by
              simp [rawLoop, hr, hrd, he]
            rw [ht]
            exact abandonRaw_cons_safe _ _ rfl ih
          · have ht : (rawLoop (it :: rest)).1 =
                [Ev.readRaw (.err e), Ev.diag opRead e] := by
              simp [rawLoop, hr, hrd, he]
            rw [ht]
            exact abandonRaw_cons_safe _ _ rfl rfl
        | ok f =>
          cases hwr : it.wr with
          | err e =>
            by_cases he : e = EINTR
            · have ht : (rawLoop (it :: rest)).1 =
                  Ev.readRaw (.ok f) ::
                    Ev.outLine (rxTag ++ print_can_frame f) ::
                      Ev.writeRaw (rawTxFrame f) (.err e) ::
                        (rawLoop rest).1 := by
                simp [rawLoop, hr, hrd, hwr, he]
              rw [ht]
              refine abandonRaw_cons_safe _ _ rfl ?_
              refine abandonRaw_cons_safe _ _ rfl ?_
              exact abandonRaw_cons_read _ _ (rawLoop_starts_with_read rest) ih
            · have ht : (rawLoop (it :: rest)).1 =
                  [Ev.readRaw (.ok f),
                   Ev.outLine (rxTag ++ print_can_frame f),
                   Ev.writeRaw (rawTxFrame f) (.err e),
                   Ev.diag opWrite e] := by
                simp [rawLoop, hr, hrd, hwr, he]
              rw [ht]
              refine abandonRaw_cons_safe _ _ rfl ?_
              refine abandonRaw_cons_safe _ _ rfl ?_
              refine abandonRaw_cons_safe _ _ ?_ rfl
              simp only [isWriteEintrRaw]
              exact beq_eq_false_iff_ne.mpr he
          | ok =>
            have ht : (rawLoop (it :: rest)).1 =
                Ev.readRaw (.ok f) ::
                  Ev.outLine (rxTag ++ print_can_frame f) ::
                    Ev.writeRaw (rawTxFrame f) .ok ::
                      Ev.outLine (txTag ++ print_can_frame (rawTxFrame f)) ::
                        (rawLoop rest).1 := by
              simp [rawLoop, hr, hrd, hwr]
            rw [ht]
            refine abandonRaw_cons_safe _ _ rfl ?_
            refine abandonRaw_cons_safe _ _ rfl ?_
            refine abandonRaw_cons_safe _ _ rfl ?_
            exact abandonRaw_cons_safe _ _ rfl ih
      · have ht : (rawLoop (it :: rest)).1 = [] := by simp [rawLoop, hr]
        rw [ht]
        rfl
  · intro w
    induction w with
    | nil => rfl
    | cons it rest ih =>
      rcases Bool.eq_false_or_eq_true it.run with hr | hr
      · cases hrd : it.rd with
        | err e =>
          by_cases he : e = EINTR
          · have ht : (bcmLoop (it :: rest)).1 =
                Ev.readBcm (.err e) :: (bcmLoop rest).1 := by
              simp [bcmLoop, hr, hrd, he]
            rw [ht]
            exact abandonBcm_cons_safe _ _ rfl ih
          · have ht : (bcmLoop (it :: rest)).1 =
                [Ev.readBcm (.err e), Ev.diag opRead e] := by
              simp [bcmLoop, hr, hrd, he]
            rw [ht]
            exact abandonBcm_cons_safe _ _ rfl rfl
        | ok h f0 =>
          cases hwr : it.wr with
          | err e =>
            by_cases he : e = EINTR
            · have ht : (bcmLoop (it :: rest)).1 =
                  Ev.readBcm (.ok h f0) ::
                    Ev.outLine (rxTag ++ print_can_frame f0) ::
                      Ev.writeBcm (bcmTxMsg h f0) (.err e) ::
                        (bcmLoop rest).1 := by
                simp [bcmLoop, hr, hrd, hwr, he]
              rw [ht]
              refine abandonBcm_cons_safe _ _ rfl ?_
              refine abandonBcm_cons_safe _ _ rfl ?_
              exact abandonBcm_cons_read _ _ (bcmLoop_starts_with_read rest) ih
            · have ht : (bcmLoop (it :: rest)).1 =
                  [Ev.readBcm (.ok h f0),
                   Ev.outLine (rxTag ++ print_can_frame f0),
                   Ev.writeBcm (bcmTxMsg h f0) (.err e),
                   Ev.diag opWrite e] := by
                simp [bcmLoop, hr, hrd, hwr, he]
              rw [ht]
              refine abandonBcm_cons_safe _ _ rfl ?_
              refine abandonBcm_cons_safe _ _ rfl ?_
              refine abandonBcm_cons_safe _ _ ?_ rfl
              simp only [isWriteEintrBcm]
              exact beq_eq_false_iff_ne.mpr he
          | ok =>
            have ht : (bcmLoop (it :: rest)).1 =
                Ev.readBcm (.ok h f0) ::
                  Ev.outLine (rxTag ++ print_can_frame f0) ::
                    Ev.writeBcm (bcmTxMsg h f0) .ok ::
                      Ev.outLine (txTag ++ print_can_frame (bcmTxFrame f0)) ::
                        (bcmLoop rest).1 := by
              simp [bcmLoop, hr, hrd, hwr]
            rw [ht]
            refine abandonBcm_cons_safe _ _ rfl ?_
            refine abandonBcm_cons_safe _ _ rfl ?_
            refine abandonBcm_cons_safe _ _ rfl ?_
            exact abandonBcm_cons_safe _ _ rfl ih
      · have ht : (bcmLoop (it :: rest)).1 = [] := by simp [bcmLoop, hr]
        rw [ht]
        rfl

/-- C1 (witness): the amended theorem applied to the concrete
interrupted-write run and to an empty bcm run. -/
theorem c1_eintr_write_abandoned_witness :
    abandonRawB (rawLoop c1World).1 = true ∧
    abandonBcmB (bcmLoop []).1 = true :=
  ⟨c1_eintr_write_abandoned.1 c1World, c1_eintr_write_abandoned.2 []⟩

/-- C3: in the raw session, reading the example frame
`{id 0x456, len 2, data 10 20}` produces exactly the RX display line
`456  [2]  10 20`, the transformed frame `{id 0x0CC, len 2, data 11 21}`,
its write, and the TX display line `0CC  [2]  11 21`, in this order
within one loop iteration. -/
theorem c3_raw_example_scenario :
    rawLoop c3World =
      ([Ev.readRaw (.ok c3InFrame),
        Ev.outLine ("RX:  456  [2]  10 20".data),
        Ev.writeRaw c3OutFrame .ok,
        Ev.outLine ("TX:  0CC  [2]  11 21".data)], .exhausted) := by
  decide

/-- C4: the cyclic session's single `TX_SETUP` registration carries
exactly 4 frames with identifiers `0x0C0 + i`, each of length 3 and
payload bytes `[i, i, i]`, all under the one interval of 1 s 200000 us,
with `SETTIMER | STARTTIMER` flags; and in every run the whole session
performs exactly one socket write and no socket read. -/
theorem c4_cyclic_setup :
    cyclicSetupMsg.head.opcode = TX_SETUP ∧
    cyclicSetupMsg.head.can_id = 0 ∧
    cyclicSetupMsg.head.flags = (SETTIMER ||| STARTTIMER) ∧
    cyclicSetupMsg.head.count = 0 ∧
    cyclicSetupMsg.head.nframes = 4 ∧
    cyclicSetupMsg.head.ival2_sec = 1 ∧
    cyclicSetupMsg.head.ival2_usec = 200000 ∧
    cyclicSetupMsg.frames =
      [⟨0x0C0, 3, [0, 0, 0, 0, 0, 0, 0, 0]⟩,
       ⟨0x0C1, 3, [1, 1, 1, 0, 0, 0, 0, 0]⟩,
       ⟨0x0C2, 3, [2, 2, 2, 0, 0, 0, 0, 0]⟩,
       ⟨0x0C3, 3, [3, 3, 3, 0, 0, 0, 0, 0]⟩] ∧
    (∀ iface sw cr,
      (cyclicMain iface sw cr).1.countP isChanWrite = 1 ∧
      (cyclicMain iface sw cr).1.countP isChanRead = 0) := by
  refine ⟨by decide, by decide, by decide, by decide, by decide, by decide,
    by decide, by decide, ?_⟩
  intro iface sw cr
  cases sw <;> cases cr <;>
    simp [cyclicMain, afterLoop, cleanup, isChanWrite, isChanRead,
      List.countP_cons, List.countP_nil, List.countP_append]

/-- Pointwise description of the increment loop: entry `i` is bumped by
1 modulo 256 exactly when `i < n`, and untouched otherwise. -/
theorem incFirst_getElem (n : Nat) (l : List Nat) (i : Nat) :
    (incFirst n l)[i]? =
      if i < n then (l[i]?).map (fun b => (b + 1) % 256) else l[i]? := by
  induction l generalizing n i with
  | nil => cases n <;> simp [incFirst]
  | cons b bs ih =>
    cases n with
    | zero => simp [incFirst]
    | succ n =>
      cases i with
      | zero => simp [incFirst]
      | succ i => simp [incFirst, ih, Nat.succ_lt_succ_iff]

/-- Iterating the frame transform only iterates the byte loop; identifier
and length are untouched. -/
theorem increment_payload_iterate (k : Nat) (f : Frame) :
    increment_payload^[k] f =
      { can_id := f.can_id, len := f.len,
        data := (incFirst f.len)^[k] f.data } := by
  induction k with
  | zero => rfl
  | succ k ih =>
    rw [Function.iterate_succ_apply', Function.iterate_succ_apply', ih]
    rfl

/-- Pointwise description of `k` iterations of the byte loop on a list of
byte values. -/
theorem incFirst_iterate_getElem (k n : Nat) (l : List Nat)
    (hl : ∀ b ∈ l, b < 256) (i : Nat) (hi : i < n) :
    ((incFirst n)^[k] l)[i]? = (l[i]?).map (fun b => (b + k) % 256) := by
  induction k with
  | zero =>
    simp only [Function.iterate_zero, id]
    cases hb : l[i]? with
    | none => simp
    | some b =>
      have hble : b < 256 := hl b (List.getElem?_mem hb)
      simp [Nat.mod_eq_of_lt hble]
  | succ k ih =>
    rw [Function.iterate_succ_apply', incFirst_getElem, if_pos hi, ih]
    cases hb : l[i]? with
    | none => rfl
    | some b =>
      simp only [Option.map_some']
      congr 1
      omega

/-- Pointwise description of `List.take`. -/
theorem take_getElem {α : Type} (n : Nat) (l : List α) (i : Nat) :
    (l.take n)[i]? = if i < n then l[i]? else none := by
  induction l generalizing n i with
  | nil => cases n <;> simp
  | cons b bs ih =>
    cases n with
    | zero => simp
    | succ n =>
      cases i with
      | zero => simp
      | succ i => simp [ih, Nat.succ_lt_succ_iff]

/-- C6: for every frame with `len <= 8` and byte values below 256,
applying the payload-increment transform 256 times restores the first
`len` payload bytes; one application leaves identifier and length
unchanged, adds 1 modulo 256 to each byte with index below `len`, and
leaves every byte at index `len` or beyond unchanged.  (The transform is
a total Lean function, hence deterministic with no error cases.) -/
theorem c6_increment_wraparound (f : Frame) (hlen : f.len ≤ 8)
    (hb : ∀ b ∈ f.data, b < 256) :
    (increment_payload^[256] f).data.take f.len = f.data.take f.len ∧
    (increment_payload f).can_id = f.can_id ∧
    (increment_payload f).len = f.len ∧
    (∀ i, i < f.len →
      (increment_payload f).data[i]? =
        (f.data[i]?).map (fun b => (b + 1) % 256)) ∧
    (∀ i, f.len ≤ i → (increment_payload f).data[i]? = f.data[i]?) := by
  refine ⟨?_, rfl, rfl, ?_, ?_⟩
  · apply List.ext_getElem?
    intro i
    rw [increment_payload_iterate]
    simp only [take_getElem]
    by_cases hi : i < f.len
    · rw [if_pos hi, if_pos hi,
        incFirst_iterate_getElem 256 f.len f.data hb i hi]
      cases hv : f.data[i]? with
      | none => rfl
      | some b =>
        have hble : b < 256 := hb b (List.getElem?_mem hv)
        simp only [Option.map_some']
        congr 1
        omega
    · rw [if_neg hi, if_neg hi]
  · intro i hi
    show (incFirst f.len f.data)[i]? = _
    rw [incFirst_getElem, if_pos hi]
  · intro i hi
    show (incFirst f.len f.data)[i]? = _
    rw [incFirst_getElem, if_neg (by omega)]

/-- C6 (witness): the wrap-around theorem applied to the example frame. -/
theorem c6_increment_wraparound_witness :
    c3InFrame.len ≤ 8 ∧ (∀ b ∈ c3InFrame.data, b < 256) ∧
    (increment_payload^[256] c3InFrame).data.take c3InFrame.len =
      c3InFrame.data.take c3InFrame.len :=
  ⟨by decide, by decide,
   (c6_increment_wraparound c3InFrame (by decide) (by decide)).1⟩

/-- C10: the render and increment operations depend only on the payload
bytes at indices below `len` (and leave the others unchanged); every
accessed index (the loop counter range `0..len`) is within the 8-byte
buffer exactly when `len <= 8`, and for `len > 8` some accessed index
falls outside the buffer — so in-bounds access relies on the
environment-supplied invariant `len <= 8`, which no code path checks. -/
theorem c10_payload_access_bounds :
    (∀ f g : Frame, f.can_id = g.can_id → f.len = g.len →
      f.data.take f.len = g.data.take g.len →
      print_can_frame f = print_can_frame g) ∧
    (∀ f : Frame, ∀ i, f.len ≤ i →
      (increment_payload f).data[i]? = f.data[i]?) ∧
    (∀ len, len ≤ 8 → ∀ i ∈ List.range len, i < 8) ∧
    (∀ len, 8 < len → ∃ i ∈ List.range len, ¬ i < 8) := by
  refine ⟨?_, ?_, ?_, ?_⟩
  · intro f g hid hlen hdata
    unfold print_can_frame
    rw [hid, hlen, ← hdata, hlen]
  · intro f i hi
    show (incFirst f.len f.data)[i]? = _
    rw [incFirst_getElem, if_neg (by omega)]
  · intro len hlen i hi
    have := List.mem_range.mp hi
    omega
  · intro len hlen
    exact ⟨8, List.mem_range.mpr (by omega), by omega⟩

/-- C10 (witness): the access-bounds theorem applied at concrete
inputs. -/
theorem c10_payload_access_bounds_witness :
    print_can_frame c3InFrame = print_can_frame c3InFrame ∧
    (increment_payload c3InFrame).data[3]? = c3InFrame.data[3]? ∧
    (∀ i ∈ List.range 2, i < 8) ∧
    (∃ i ∈ List.range 9, ¬ i < 8) :=
  ⟨c10_payload_access_bounds.1 c3InFrame c3InFrame rfl rfl rfl,
   c10_payload_access_bounds.2.1 c3InFrame 3 (by decide),
   c10_payload_access_bounds.2.2.1 2 (by decide),
   c10_payload_access_bounds.2.2.2 9 (by decide)⟩

/-- `hexDigit` yields an uppercase hexadecimal digit character. -/
theorem hexDigit_hex : ∀ n, n < 16 → isHexUpper (hexDigit n) = true := by
  decide

/-- Every character produced by `toHexAux` is an uppercase hexadecimal
digit. -/
theorem toHexAux_hex (fuel : Nat) :
    ∀ n, ∀ c ∈ toHexAux fuel n, isHexUpper c = true := by
  induction fuel with
  | zero => intro n c hc; simp [toHexAux] at hc
  | succ fuel ih =>
    intro n c hc
    by_cases hn : n < 16
    · rw [toHexAux, if_pos hn] at hc
      simp only [List.mem_singleton] at hc
      subst hc
      exact hexDigit_hex n hn
    · rw [toHexAux, if_neg hn] at hc
      rcases List.mem_append.mp hc with h | h
      · exact ih _ _ h
      · simp only [List.mem_singleton] at h
        subst h
        exact hexDigit_hex _ (Nat.mod_lt _ (by omega))

/-- Every character of a zero-padded hexadecimal rendering is an
uppercase hexadecimal digit. -/
theorem hexWidth_hex (w n : Nat) : ∀ c ∈ hexWidth w n, isHexUpper c = true := by
  intro c hc
  rcases List.mem_append.mp hc with h | h
  · rw [List.eq_of_mem_replicate h]
    decide
  · exact toHexAux_hex _ _ _ h

/-- The `%03X` identifier rendering has at least 3 characters. -/
theorem hexWidth3_len (n : Nat) : 3 ≤ (hexWidth 3 n).length := by
  unfold hexWidth
  rw [List.length_append, List.length_replicate]
  omega

set_option maxRecDepth 8192 in
/-- The `%02X` rendering of a byte value has exactly 2 characters. -/
theorem hexWidth2_len : ∀ b, b < 256 → (hexWidth 2 b).length = 2 := by
  decide

/-- The byte section printed by the `" %02X"` loop is a sequence of
space-prefixed two-digit groups, one per byte. -/
theorem bytesSection (l : List Nat) (hl : ∀ b ∈ l, b < 256) :
    ∃ bs : List (Char × Char), bs.length = l.length ∧
      (∀ p ∈ bs, isHexUpper (Prod.fst p) = true ∧
        isHexUpper (Prod.snd p) = true) ∧
      l.flatMap (fun b => ' ' :: hexWidth 2 b) = byteTriples bs := by
  induction l with
  | nil => exact ⟨[], rfl, by simp, rfl⟩
  | cons b t ih =>
    obtain ⟨bs, hlen, hhex, heq⟩ :=
      ih (fun x hx => hl x (List.mem_cons_of_mem _ hx))
    have hb : b < 256 := hl b (List.mem_cons_self b t)
    obtain ⟨c1, c2, hc⟩ := List.length_eq_two.mp (hexWidth2_len b hb)
    refine ⟨(c1, c2) :: bs, by simp [hlen], ?_, ?_⟩
    · intro p hp
      rcases List.mem_cons.mp hp with hp0 | hp'
      · subst hp0
        constructor
        · exact hexWidth_hex 2 b c1 (by rw [hc]; simp)
        · exact hexWidth_hex 2 b c2 (by rw [hc]; simp)
      · exact hhex p hp'
    · rw [List.flatMap_cons, hc, heq]
      rfl

/-- C5 (counterexample): the rendered text does not always match the
claimed pattern.  For a frame with zero payload length the rendering is
`123  [0] `, which ends in the format string's trailing space, while
every string of the claimed shape ends at `]` — so the claimed
`nothing else after the byte values` pattern is violated. -/
theorem c5_counterexample :
    ¬ (∀ f : Frame, f.len ≤ 8 → f.data.length = 8 →
        (∀ b ∈ f.data, b < 256) →
        c5ShapeClaimed f.len (print_can_frame f)) := by
  intro h
  obtain ⟨pre, bs, hpre3, hprehex, hbslen, hbshex, heq⟩ :=
    h c5ZeroFrame (by decide) (by decide) (by decide)
  have hbs : bs = [] := List.length_eq_zero.mp (by simpa [c5ZeroFrame] using hbslen)
  subst hbs
  have hL : print_can_frame c5ZeroFrame =
      ['1', '2', '3', ' ', ' ', '[', '0', ']', ' '] := by decide
  rw [hL, List.append_assoc, List.append_assoc, List.append_assoc] at heq
  have hcat : "  [".data ++ (toDec c5ZeroFrame.len ++ ("]".data ++
      byteTriples ([] : List (Char × Char)))) =
      [' ', ' ', '[', '0', ']'] := by decide
  rw [hcat] at heq
  have hrev := congrArg List.reverse heq
  rw [List.reverse_append] at hrev
  have e1 : (['1', '2', '3', ' ', ' ', '[', '0', ']', ' '] :
      List Char).reverse = [' ', ']', '0', '[', ' ', ' ', '3', '2', '1'] := by
    decide
  have e2 : ([' ', ' ', '[', '0', ']'] : List Char).reverse =
      [']', '0', '[', ' ', ' '] := by decide
  rw [e1, e2, List.cons_append] at hrev
  injection hrev with hhead htail
  exact absurd hhead (by decide)

/-- C5 (amended): for every frame with `len <= 8`, a full 8-byte buffer
and byte values below 256, the rendered text matches the claimed
pattern amended by one additional space after `]` (the trailing space
of the `"%03X  [%u] "` format string): 3 or more uppercase hex digits,
two spaces, `[`, the decimal length, `]`, one space, then exactly `len`
space-prefixed two-digit uppercase hex byte values and nothing else.
Rendering is a pure function of the frame. -/
theorem c5_render_shape (f : Frame) (hlen : f.len ≤ 8)
    (hdl : f.data.length = 8) (hb : ∀ b ∈ f.data, b < 256) :
    c5ShapeActual f.len (print_can_frame f) := by
  obtain ⟨bs, hbslen, hbshex, hflat⟩ :=
    bytesSection (f.data.take f.len)
      (fun x hx => hb x (List.mem_of_mem_take hx))
  refine ⟨hexWidth 3 f.can_id, bs, hexWidth3_len f.can_id,
    fun c hc => hexWidth_hex 3 f.can_id c hc, ?_, hbshex, ?_⟩
  · rw [hbslen, List.length_take, hdl]
    exact Nat.min_eq_left hlen
  · unfold print_can_frame
    rw [hflat]

/-- C5 (witness): the amended shape theorem applied to the example
frame. -/
theorem c5_render_shape_witness :
    c3InFrame.len ≤ 8 ∧ c3InFrame.data.length = 8 ∧
    (∀ b ∈ c3InFrame.data, b < 256) ∧
    c5ShapeActual c3InFrame.len (print_can_frame c3InFrame) :=
  ⟨by decide, by decide, by decide,
   c5_render_shape c3InFrame (by decide) (by decide) (by decide)⟩

/-- `afterLoop` on a successful close: mask, close, goodbye, success. -/
theorem afterLoop_ok (tr : List Ev) :
    afterLoop tr .ok =
      (tr ++ [Ev.sigmask, Ev.closeFd .ok, Ev.outLine goodbyeLine],
       .exited EXIT_SUCCESS) := by
  simp [afterLoop, cleanup]

/-- `afterLoop` on a failed close: mask, close, close diagnostic, failure
exit (from `error(EXIT_FAILURE, errno, "close")`). -/
theorem afterLoop_err (tr : List Ev) (e : Nat) :
    afterLoop tr (.err e) =
      (tr ++ [Ev.sigmask, Ev.closeFd (.err e), Ev.diag opClose e],
       .exited EXIT_FAILURE) := by
  simp [afterLoop, cleanup]

/-- When the raw loop exits (rather than the environment running out),
`main` proceeds to the teardown. -/
theorem rawMain_after (w : List RawIter) (cr : WrRes)
    (h : (rawLoop w).2 ≠ .exhausted) :
    rawMain w cr = afterLoop (rawLoop w).1 cr := by
  cases hx : (rawLoop w).2 with
  | exhausted => exact absurd hx h
  | flagClear => simp [rawMain, hx]
  | ioError op e => simp [rawMain, hx]

/-- When the bcm loop exits (rather than the environment running out),
`main` proceeds to the teardown, with the setup write at the head of
the trace. -/
theorem bcmMain_after (w : List BcmIter) (cr : WrRes)
    (h : (bcmLoop w).2 ≠ .exhausted) :
    bcmMain .ok w cr =
      afterLoop (Ev.writeBcm rxSetupMsg .ok :: (bcmLoop w).1) cr := by
  cases hx : (bcmLoop w).2 with
  | exhausted => exact absurd hx h
  | flagClear => simp [bcmMain, hx]
  | ioError op e => simp [bcmMain, hx]

/-- If the raw loop exits on an I/O error, the diagnostic naming the
failing operation and the errno is in its trace. -/
theorem rawLoop_ioError_diag (w : List RawIter) (op : List Char) (e : Nat)
    (h : (rawLoop w).2 = .ioError op e) :
    Ev.diag op e ∈ (rawLoop w).1 := by
  induction w with
  | nil => simp [rawLoop] at h
  | cons it rest ih =>
    rcases Bool.eq_false_or_eq_true it.run with hr | hr
    · cases hrd : it.rd with
      | err e2 =>
        by_cases hee : e2 = EINTR
        · have h2 : (rawLoop rest).2 = .ioError op e := by
            have hx : (rawLoop (it :: rest)).2 = (rawLoop rest).2 := by
              simp [rawLoop, hr, hrd, hee]
            rw [← hx]; exact h
          rw [show (rawLoop (it :: rest)).1 =
              Ev.readRaw (.err e2) :: (rawLoop rest).1 from by
                simp [rawLoop, hr, hrd, hee]]
          exact List.mem_cons_of_mem _ (ih h2)
        · have hx : (rawLoop (it :: rest)).2 = .ioError opRead e2 := by
            simp [rawLoop, hr, hrd, hee]
          rw [hx] at h
          injection h with hop hee2
          subst hop; subst hee2
          rw [show (rawLoop (it :: rest)).1 =
              [Ev.readRaw (.err e2), Ev.diag opRead e2] from by
                simp [rawLoop, hr, hrd, hee]]
          simp
      | ok f =>
        cases hwr : it.wr with
        | err e2 =>
          by_cases hee : e2 = EINTR
          · have h2 : (rawLoop rest).2 = .ioError op e := by
              have hx : (rawLoop (it :: rest)).2 = (rawLoop rest).2 := by
                simp [rawLoop, hr, hrd, hwr, hee]
              rw [← hx]; exact h
            rw [show (rawLoop (it :: rest)).1 =
                Ev.readRaw (.ok f) ::
                  Ev.outLine (rxTag ++ print_can_frame f) ::
                    Ev.writeRaw (rawTxFrame f) (.err e2) ::
                      (rawLoop rest).1 from by
                  simp [rawLoop, hr, hrd, hwr, hee]]
            exact List.mem_cons_of_mem _ (List.mem_cons_of_mem _
              (List.mem_cons_of_mem _ (ih h2)))
          · have hx : (rawLoop (it :: rest)).2 = .ioError opWrite e2 := by
              simp [rawLoop, hr, hrd, hwr, hee]
            rw [hx] at h
            injection h with hop hee2
            subst hop; subst hee2
            rw [show (rawLoop (it :: rest)).1 =
                [Ev.readRaw (.ok f),
                 Ev.outLine (rxTag ++ print_can_frame f),
                 Ev.writeRaw (rawTxFrame f) (.err e2),
                 Ev.diag opWrite e2] from by
                  simp [rawLoop, hr, hrd, hwr, hee]]
            simp
        | ok =>
          have h2 : (rawLoop rest).2 = .ioError op e := by
            have hx : (rawLoop (it :: rest)).2 = (rawLoop rest).2 := by
              simp [rawLoop, hr, hrd, hwr]
            rw [← hx]; exact h
          rw [show (rawLoop (it :: rest)).1 =
              Ev.readRaw (.ok f) ::
                Ev.outLine (rxTag ++ print_can_frame f) ::
                  Ev.writeRaw (rawTxFrame f) .ok ::
                    Ev.outLine (txTag ++ print_can_frame (rawTxFrame f)) ::
                      (rawLoop rest).1 from by
                simp [rawLoop, hr, hrd, hwr]]
          exact List.mem_cons_of_mem _ (List.mem_cons_of_mem _
            (List.mem_cons_of_mem _ (List.mem_cons_of_mem _ (ih h2))))
    · have hx : (rawLoop (it :: rest)).2 = .flagClear := by
        simp [rawLoop, hr]
      rw [hx] at h
      cases h

/-- If the bcm loop exits on an I/O error, the diagnostic naming the
failing operation and the errno is in its trace. -/
theorem bcmLoop_ioError_diag (w : List BcmIter) (op : List Char) (e : Nat)
    (h : (bcmLoop w).2 = .ioError op e) :
    Ev.diag op e ∈ (bcmLoop w).1 := by
  induction w with
  | nil => simp [bcmLoop] at h
  | cons it rest ih =>
    rcases Bool.eq_false_or_eq_true it.run with hr | hr
    · cases hrd : it.rd with
      | err e2 =>
        by_cases hee : e2 = EINTR
        · have h2 : (bcmLoop rest).2 = .ioError op e := by
            have hx : (bcmLoop (it :: rest)).2 = (bcmLoop rest).2 := by
              simp [bcmLoop, hr, hrd, hee]
            rw [← hx]; exact h
          rw [show (bcmLoop (it :: rest)).1 =
              Ev.readBcm (.err e2) :: (bcmLoop rest).1 from by
                simp [bcmLoop, hr, hrd, hee]]
          exact List.mem_cons_of_mem _ (ih h2)
        · have hx : (bcmLoop (it :: rest)).2 = .ioError opRead e2 := by
            simp [bcmLoop, hr, hrd, hee]
          rw [hx] at h
          injection h with hop hee2
          subst hop; subst hee2
          rw [show (bcmLoop (it :: rest)).1 =
              [Ev.readBcm (.err e2), Ev.diag opRead e2] from by
                simp [bcmLoop, hr, hrd, hee]]
          simp
      | ok hh f0 =>
        cases hwr : it.wr with
        | err e2 =>
          by_cases hee : e2 = EINTR
          · have h2 : (bcmLoop rest).2 = .ioError op e := by
              have hx : (bcmLoop (it :: rest)).2 = (bcmLoop rest).2 := by
                simp [bcmLoop, hr, hrd, hwr, hee]
              rw [← hx]; exact h
            rw [show (bcmLoop (it :: rest)).1 =
                Ev.readBcm (.ok hh f0) ::
                  Ev.outLine (rxTag ++ print_can_frame f0) ::
                    Ev.writeBcm (bcmTxMsg hh f0) (.err e2) ::
                      (bcmLoop rest).1 from by
                  simp [bcmLoop, hr, hrd, hwr, hee]]
            exact List.mem_cons_of_mem _ (List.mem_cons_of_mem _
              (List.mem_cons_of_mem _ (ih h2)))
          · have hx : (bcmLoop (it :: rest)).2 = .ioError opWrite e2 := by
              simp [bcmLoop, hr, hrd, hwr, hee]
            rw [hx] at h
            injection h with hop hee2
            subst hop; subst hee2
            rw [show (bcmLoop (it :: rest)).1 =
                [Ev.readBcm (.ok hh f0),
                 Ev.outLine (rxTag ++ print_can_frame f0),
                 Ev.writeBcm (bcmTxMsg hh f0) (.err e2),
                 Ev.diag opWrite e2] from by
                  simp [bcmLoop, hr, hrd, hwr, hee]]
            simp
        | ok =>
          have h2 : (bcmLoop rest).2 = .ioError op e := by
            have hx : (bcmLoop (it :: rest)).2 = (bcmLoop rest).2 := by
              simp [bcmLoop, hr, hrd, hwr]
            rw [← hx]; exact h
          rw [show (bcmLoop (it :: rest)).1 =
              Ev.readBcm (.ok hh f0) ::
                Ev.outLine (rxTag ++ print_can_frame f0) ::
                  Ev.writeBcm (bcmTxMsg hh f0) .ok ::
                    Ev.outLine (txTag ++ print_can_frame (bcmTxFrame f0)) ::
                      (bcmLoop rest).1 from by
                simp [bcmLoop, hr, hrd, hwr]]
          exact List.mem_cons_of_mem _ (List.mem_cons_of_mem _
            (List.mem_cons_of_mem _ (List.mem_cons_of_mem _ (ih h2))))
    · have hx : (bcmLoop (it :: rest)).2 = .flagClear := by
        simp [bcmLoop, hr]
      rw [hx] at h
      cases h

/-- Every event of the raw loop's trace is a read, a display line, a
socket write or an I/O diagnostic — never the close call or the signal
masking of `cleanup`. -/
theorem rawLoop_events (w : List RawIter) :
    ∀ e ∈ (rawLoop w).1, isCloseEv e = false ∧ isSigmaskEv e = false := by
  induction w with
  | nil => intro e he; simp [rawLoop] at he
  | cons it rest ih =>
    intro e he
    rcases Bool.eq_false_or_eq_true it.run with hr | hr
    · cases hrd : it.rd with
      | err e2 =>
        by_cases hee : e2 = EINTR
        · rw [show (rawLoop (it :: rest)).1 =
              Ev.readRaw (.err e2) :: (rawLoop rest).1 from by
                simp [rawLoop, hr, hrd, hee]] at he
          rcases List.mem_cons.mp he with rfl | hm
          · exact ⟨rfl, rfl⟩
          · exact ih e hm
        · rw [show (rawLoop (it :: rest)).1 =
              [Ev.readRaw (.err e2), Ev.diag opRead e2] from by
                simp [rawLoop, hr, hrd, hee]] at he
          simp only [List.mem_cons, List.not_mem_nil, or_false] at he
          rcases he with rfl | rfl <;> exact ⟨rfl, rfl⟩
      | ok f =>
        cases hwr : it.wr with
        | err e2 =>
          by_cases hee : e2 = EINTR
          · rw [show (rawLoop (it :: rest)).1 =
                Ev.readRaw (.ok f) ::
                  Ev.outLine (rxTag ++ print_can_frame f) ::
                    Ev.writeRaw (rawTxFrame f) (.err e2) ::
                      (rawLoop rest).1 from by
                  simp [rawLoop, hr, hrd, hwr, hee]] at he
            rcases List.mem_cons.mp he with rfl | he
            · exact ⟨rfl, rfl⟩
            rcases List.mem_cons.mp he with rfl | he
            · exact ⟨rfl, rfl⟩
            rcases List.mem_cons.mp he with rfl | he
            · exact ⟨rfl, rfl⟩
            exact ih e he
          · rw [show (rawLoop (it :: rest)).1 =
                [Ev.readRaw (.ok f),
                 Ev.outLine (rxTag ++ print_can_frame f),
                 Ev.writeRaw (rawTxFrame f) (.err e2),
                 Ev.diag opWrite e2] from by
                  simp [rawLoop, hr, hrd, hwr, hee]] at he
            simp only [List.mem_cons, List.not_mem_nil, or_false] at he
            rcases he with rfl | rfl | rfl | rfl <;> exact ⟨rfl, rfl⟩
        | ok =>
          rw [show (rawLoop (it :: rest)).1 =
              Ev.readRaw (.ok f) ::
                Ev.outLine (rxTag ++ print_can_frame f) ::
                  Ev.writeRaw (rawTxFrame f) .ok ::
                    Ev.outLine (txTag ++ print_can_frame (rawTxFrame f)) ::
                      (rawLoop rest).1 from by
                simp [rawLoop, hr, hrd, hwr]] at he
          rcases List.mem_cons.mp he with rfl | he
          · exact ⟨rfl, rfl⟩
          rcases List.mem_cons.mp he with rfl | he
          · exact ⟨rfl, rfl⟩
          rcases List.mem_cons.mp he with rfl | he
          · exact ⟨rfl, rfl⟩
          rcases List.mem_cons.mp he with rfl | he
          · exact ⟨rfl, rfl⟩
          exact ih e he
    · rw [show (rawLoop (it :: rest)).1 = [] from by simp [rawLoop, hr]] at he
      simp at he

/-- Every event of the bcm loop's trace is a read, a display line, a
socket write or an I/O diagnostic (never close or signal masking), and
every socket write it performs writes a `TX_SEND` one-shot message of
the `bcmTxMsg` shape. -/
theorem bcmLoop_events (w : List BcmIter) :
    ∀ e ∈ (bcmLoop w).1,
      isCloseEv e = false ∧ isSigmaskEv e = false ∧
      (∀ m r, e = Ev.writeBcm m r → ∃ hh f0, m = bcmTxMsg hh f0) := by
  induction w with
  | nil => intro e he; simp [bcmLoop] at he
  | cons it rest ih =>
    intro e he
    rcases Bool.eq_false_or_eq_true it.run with hr | hr
    · cases hrd : it.rd with
      | err e2 =>
        by_cases hee : e2 = EINTR
        · rw [show (bcmLoop (it :: rest)).1 =
              Ev.readBcm (.err e2) :: (bcmLoop rest).1 from by
                simp [bcmLoop, hr, hrd, hee]] at he
          rcases List.mem_cons.mp he with rfl | hm
          · exact ⟨rfl, rfl, fun m r hmr => by cases hmr⟩
          · exact ih e hm
        · rw [show (bcmLoop (it :: rest)).1 =
              [Ev.readBcm (.err e2), Ev.diag opRead e2] from by
                simp [bcmLoop, hr, hrd, hee]] at he
          simp only [List.mem_cons, List.not_mem_nil, or_false] at he
          rcases he with rfl | rfl <;>
            exact ⟨rfl, rfl, fun m r hmr => by cases hmr⟩
      | ok hh f0 =>
        cases hwr : it.wr with
        | err e2 =>
          by_cases hee : e2 = EINTR
          · rw [show (bcmLoop (it :: rest)).1 =
                Ev.readBcm (.ok hh f0) ::
                  Ev.outLine (rxTag ++ print_can_frame f0) ::
                    Ev.writeBcm (bcmTxMsg hh f0) (.err e2) ::
                      (bcmLoop rest).1 from by
                  simp [bcmLoop, hr, hrd, hwr, hee]] at he
            rcases List.mem_cons.mp he with rfl | he
            · exact ⟨rfl, rfl, fun m r hmr => by cases hmr⟩
            rcases List.mem_cons.mp he with rfl | he
            · exact ⟨rfl, rfl, fun m r hmr => by cases hmr⟩
            rcases List.mem_cons.mp he with rfl | he
            · refine ⟨rfl, rfl, fun m r hmr => ?_⟩
              injection hmr with hm hr2
              exact ⟨hh, f0, hm.symm⟩
            exact ih e he
          · rw [show (bcmLoop (it :: rest)).1 =
                [Ev.readBcm (.ok hh f0),
                 Ev.outLine (rxTag ++ print_can_frame f0),
                 Ev.writeBcm (bcmTxMsg hh f0) (.err e2),
                 Ev.diag opWrite e2] from by
                  simp [bcmLoop, hr, hrd, hwr, hee]] at he
            simp only [List.mem_cons, List.not_mem_nil, or_false] at he
            rcases he with rfl | rfl | rfl | rfl
            · exact ⟨rfl, rfl, fun m r hmr => by cases hmr⟩
            · exact ⟨rfl, rfl, fun m r hmr => by cases hmr⟩
            · refine ⟨rfl, rfl, fun m r hmr => ?_⟩
              injection hmr with hm hr2
              exact ⟨hh, f0, hm.symm⟩
            · exact ⟨rfl, rfl, fun m r hmr => by cases hmr⟩
        | ok =>
          rw [show (bcmLoop (it :: rest)).1 =
              Ev.readBcm (.ok hh f0) ::
                Ev.outLine (rxTag ++ print_can_frame f0) ::
                  Ev.writeBcm (bcmTxMsg hh f0) .ok ::
                    Ev.outLine (txTag ++ print_can_frame (bcmTxFrame f0)) ::
                      (bcmLoop rest).1 from by
                simp [bcmLoop, hr, hrd, hwr]] at he
          rcases List.mem_cons.mp he with rfl | he
          · exact ⟨rfl, rfl, fun m r hmr => by cases hmr⟩
          rcases List.mem_cons.mp he with rfl | he
          · exact ⟨rfl, rfl, fun m r hmr => by cases hmr⟩
          rcases List.mem_cons.mp he with rfl | he
          · refine ⟨rfl, rfl, fun m r hmr => ?_⟩
            injection hmr with hm hr2
            exact ⟨hh, f0, hm.symm⟩
          rcases List.mem_cons.mp he with rfl | he
          · exact ⟨rfl, rfl, fun m r hmr => by cases hmr⟩
          exact ih e he
    · rw [show (bcmLoop (it :: rest)).1 = [] from by simp [bcmLoop, hr]] at he
      simp at he

/-- C2 (counterexample): it is not the case that a non-interruption read
or write failure makes the process exit with a failure status (nor that
a success status implies a graceful shutdown).  In the concrete run
`c2World` the read fails with errno 5, the diagnostic is printed, yet
the process closes the socket and exits with the success status. -/
theorem c2_counterexample :
    ¬ ((∀ w cr, hasIoDiagB (rawMain w cr).1 = true →
          isFailExitB (rawMain w cr).2 = true) ∧
       (∀ sw w cr, hasIoDiagB (bcmMain sw w cr).1 = true →
          isFailExitB (bcmMain sw w cr).2 = true) ∧
       (∀ w cr, (rawMain w cr).2 = ProcOut.exited EXIT_SUCCESS →
          (rawLoop w).2 = LoopExit.flagClear)) := by
  intro h
  exact absurd (h.1 c2World .ok (by decide)) (by decide)

/-- C2 (amended): a non-interruption loop read/write failure produces a
diagnostic naming the operation and the errno, aborts the loop, and the
session still closes; the process then exits with the success status
when the close succeeds (failure status only when the close itself
fails).  The filtered-echo session's setup write failure is fatal with
a failure status, and a success exit implies the close succeeded. -/
theorem c2_io_error_exit_status :
    (∀ w cr op e, (rawLoop w).2 = .ioError op e →
      Ev.diag op e ∈ (rawMain w cr).1 ∧
      Ev.closeFd cr ∈ (rawMain w cr).1 ∧
      (rawMain w cr).2 = .exited (exitOf cr)) ∧
    (∀ w cr op e, (bcmLoop w).2 = .ioError op e →
      Ev.diag op e ∈ (bcmMain .ok w cr).1 ∧
      Ev.closeFd cr ∈ (bcmMain .ok w cr).1 ∧
      (bcmMain .ok w cr).2 = .exited (exitOf cr)) ∧
    (∀ e w cr, (bcmMain (.err e) w cr).2 = .exited EXIT_FAILURE ∧
      Ev.diag opWrite e ∈ (bcmMain (.err e) w cr).1) ∧
    (∀ w cr, (rawMain w cr).2 = .exited EXIT_SUCCESS → cr = .ok) := by
  refine ⟨?_, ?_, ?_, ?_⟩
  · intro w cr op e h
    have hne : (rawLoop w).2 ≠ .exhausted := by rw [h]; intro hc; cases hc
    rw [rawMain_after w cr hne]
    have hdiag := rawLoop_ioError_diag w op e h
    cases cr with
    | ok =>
      rw [afterLoop_ok]
      exact ⟨List.mem_append_left _ hdiag,
        List.mem_append_right _ (by simp), rfl⟩
    | err e2 =>
      rw [afterLoop_err]
      exact ⟨List.mem_append_left _ hdiag,
        List.mem_append_right _ (by simp), rfl⟩
  · intro w cr op e h
    have hne : (bcmLoop w).2 ≠ .exhausted := by rw [h]; intro hc; cases hc
    rw [bcmMain_after w cr hne]
    have hdiag := bcmLoop_ioError_diag w op e h
    cases cr with
    | ok =>
      rw [afterLoop_ok]
      exact ⟨List.mem_append_left _ (List.mem_cons_of_mem _ hdiag),
        List.mem_append_right _ (by simp), rfl⟩
    | err e2 =>
      rw [afterLoop_err]
      exact ⟨List.mem_append_left _ (List.mem_cons_of_mem _ hdiag),
        List.mem_append_right _ (by simp), rfl⟩
  · intro e w cr
    exact ⟨rfl, by simp [bcmMain]⟩
  · intro w cr h
    cases hx : (rawLoop w).2 with
    | exhausted => simp [rawMain, hx] at h
    | flagClear =>
      cases cr with
      | ok => rfl
      | err e2 =>
        have hm := rawMain_after w (.err e2) (by rw [hx]; intro hc; cases hc)
        rw [hm, afterLoop_err] at h
        simp [EXIT_FAILURE, EXIT_SUCCESS] at h
    | ioError op e =>
      cases cr with
      | ok => rfl
      | err e2 =>
        have hm := rawMain_after w (.err e2) (by rw [hx]; intro hc; cases hc)
        rw [hm, afterLoop_err] at h
        simp [EXIT_FAILURE, EXIT_SUCCESS] at h

/-- C2 (witness): the amended theorem applied to the concrete failing
read in `c2World` with a successful close. -/
theorem c2_io_error_exit_status_witness :
    (rawLoop c2World).2 = LoopExit.ioError opRead 5 ∧
    (Ev.diag opRead 5 ∈ (rawMain c2World .ok).1 ∧
     Ev.closeFd .ok ∈ (rawMain c2World .ok).1 ∧
     (rawMain c2World .ok).2 = .exited (exitOf .ok)) :=
  ⟨by decide, c2_io_error_exit_status.1 c2World .ok opRead 5 (by decide)⟩

/-- C7: on every path that leaves a session loop (shutdown flag observed
clear, or an unrecoverable I/O error), the teardown runs exactly once:
the trace ends with the signal masking immediately followed by the one
close call, with no close or masking anywhere else. -/
theorem c7_close_exactly_once :
    (∀ w cr, (rawLoop w).2 ≠ .exhausted →
      ∃ pre rest,
        (rawMain w cr).1 = pre ++ Ev.sigmask :: Ev.closeFd cr :: rest ∧
        (∀ e ∈ pre, isCloseEv e = false ∧ isSigmaskEv e = false) ∧
        (∀ e ∈ rest, isCloseEv e = false ∧ isSigmaskEv e = false)) ∧
    (∀ w cr, (bcmLoop w).2 ≠ .exhausted →
      ∃ pre rest,
        (bcmMain .ok w cr).1 = pre ++ Ev.sigmask :: Ev.closeFd cr :: rest ∧
        (∀ e ∈ pre, isCloseEv e = false ∧ isSigmaskEv e = false) ∧
        (∀ e ∈ rest, isCloseEv e = false ∧ isSigmaskEv e = false)) := by
  constructor
  · intro w cr hne
    rw [rawMain_after w cr hne]
    cases cr with
    | ok =>
      refine ⟨(rawLoop w).1, [Ev.outLine goodbyeLine], ?_, rawLoop_events w, ?_⟩
      · rw [afterLoop_ok]
      · intro e he
        simp only [List.mem_singleton] at he
        subst he
        exact ⟨rfl, rfl⟩
    | err e2 =>
      refine ⟨(rawLoop w).1, [Ev.diag opClose e2], ?_, rawLoop_events w, ?_⟩
      · rw [afterLoop_err]
      · intro e he
        simp only [List.mem_singleton] at he
        subst he
        exact ⟨rfl, rfl⟩
  · intro w cr hne
    rw [bcmMain_after w cr hne]
    have hpre : ∀ e ∈ Ev.writeBcm rxSetupMsg .ok :: (bcmLoop w).1,
        isCloseEv e = false ∧ isSigmaskEv e = false := by
      intro e he
      rcases List.mem_cons.mp he with rfl | hm
      · exact ⟨rfl, rfl⟩
      · exact ⟨(bcmLoop_events w e hm).1, (bcmLoop_events w e hm).2.1⟩
    cases cr with
    | ok =>
      refine ⟨Ev.writeBcm rxSetupMsg .ok :: (bcmLoop w).1,
        [Ev.outLine goodbyeLine], ?_, hpre, ?_⟩
      · rw [afterLoop_ok]
      · intro e he
        simp only [List.mem_singleton] at he
        subst he
        exact ⟨rfl, rfl⟩
    | err e2 =>
      refine ⟨Ev.writeBcm rxSetupMsg .ok :: (bcmLoop w).1,
        [Ev.diag opClose e2], ?_, hpre, ?_⟩
      · rw [afterLoop_err]
      · intro e he
        simp only [List.mem_singleton] at he
        subst he
        exact ⟨rfl, rfl⟩

/-- C7 (witness): the close-exactly-once theorem applied to concrete
runs whose loops observe the shutdown flag clear at once. -/
theorem c7_close_exactly_once_witness :
    (rawLoop [haltIter]).2 ≠ LoopExit.exhausted ∧
    (∃ pre rest,
      (rawMain [haltIter] .ok).1 =
        pre ++ Ev.sigmask :: Ev.closeFd .ok :: rest ∧
      (∀ e ∈ pre, isCloseEv e = false ∧ isSigmaskEv e = false) ∧
      (∀ e ∈ rest, isCloseEv e = false ∧ isSigmaskEv e = false)) ∧
    (∃ pre rest,
      (bcmMain .ok [bcmHaltIter] .ok).1 =
        pre ++ Ev.sigmask :: Ev.closeFd .ok :: rest ∧
      (∀ e ∈ pre, isCloseEv e = false ∧ isSigmaskEv e = false) ∧
      (∀ e ∈ rest, isCloseEv e = false ∧ isSigmaskEv e = false)) :=
  ⟨by decide, c7_close_exactly_once.1 [haltIter] .ok (by decide),
   c7_close_exactly_once.2 [bcmHaltIter] .ok (by decide)⟩

/-- C8 (counterexample): it is not the case that a failing close is
logged and the process still completes the remaining shutdown sequence
(goodbye message, success status).  In the concrete teardown with close
failing with errno 9, the diagnostic is produced but the process exits
immediately with the failure status and no goodbye line. -/
theorem c8_counterexample :
    ¬ (∀ tr cr, hasCloseErrB (afterLoop tr cr).1 = true →
        hasCloseDiagB (afterLoop tr cr).1 = true ∧
        hasGoodbyeB (afterLoop tr cr).1 = true ∧
        (afterLoop tr cr).2 = ProcOut.exited EXIT_SUCCESS) := by
  intro h
  exact absurd (h [] (.err 9) (by decide)) (by decide)

/-- C8 (amended): when the close fails during teardown, a diagnostic
naming the close operation is produced and the process terminates
immediately with the failure exit status, skipping the remaining
shutdown output (no goodbye line is appended). -/
theorem c8_close_failure_aborts (tr : List Ev) (e : Nat) :
    (afterLoop tr (.err e)).1 =
      tr ++ [Ev.sigmask, Ev.closeFd (.err e), Ev.diag opClose e] ∧
    (afterLoop tr (.err e)).2 = .exited EXIT_FAILURE ∧
    hasCloseDiagB (afterLoop tr (.err e)).1 = true ∧
    EXIT_FAILURE ≠ EXIT_SUCCESS := by
  refine ⟨rfl, rfl, ?_, by decide⟩
  simp [hasCloseDiagB, afterLoop, cleanup]

/-- C9: in the filtered-echo session, the trace always begins with the
single `RX_SETUP` write carrying target identifier `0x123`, and every
other socket write is a `TX_SEND` command with frame count 1 and a zero
command-header identifier whose one embedded frame carries the real
transmit identifier `MSGID` (`0x0BC`). -/
theorem c9_bcm_commands :
    ∀ sw w cr, ∃ rest,
      (bcmMain sw w cr).1 = Ev.writeBcm rxSetupMsg sw :: rest ∧
      rxSetupMsg.head.opcode = RX_SETUP ∧
      rxSetupMsg.head.can_id = 0x123 ∧
      TX_SEND ≠ RX_SETUP ∧
      (∀ m r, Ev.writeBcm m r ∈ rest →
        m.head.opcode = TX_SEND ∧ m.head.can_id = 0 ∧
        m.head.nframes = 1 ∧ m.frames.length = 1 ∧
        ∀ fr ∈ m.frames, fr.can_id = MSGID_bcm) := by
  intro sw w cr
  have htx : ∀ m r, Ev.writeBcm m r ∈ (bcmLoop w).1 →
      m.head.opcode = TX_SEND ∧ m.head.can_id = 0 ∧
      m.head.nframes = 1 ∧ m.frames.length = 1 ∧
      ∀ fr ∈ m.frames, fr.can_id = MSGID_bcm := by
    intro m r hm
    obtain ⟨hh, f0, hmm⟩ := (bcmLoop_events w _ hm).2.2 m r rfl
    subst hmm
    refine ⟨rfl, rfl, rfl, rfl, ?_⟩
    intro fr hfr
    simp only [bcmTxMsg, List.mem_singleton] at hfr
    subst hfr
    rfl
  cases sw with
  | err e =>
    refine ⟨[Ev.diag opWrite e], by simp [bcmMain], rfl, rfl, by decide, ?_⟩
    intro m r hm
    simp at hm
  | ok =>
    cases hx : (bcmLoop w).2 with
    | exhausted =>
      refine ⟨(bcmLoop w).1, by simp [bcmMain, hx], rfl, rfl, by decide, htx⟩
    | flagClear =>
      rw [bcmMain_after w cr (by rw [hx]; intro hc; cases hc)]
      cases cr with
      | ok =>
        refine ⟨(bcmLoop w).1 ++
          [Ev.sigmask, Ev.closeFd .ok, Ev.outLine goodbyeLine],
          by rw [afterLoop_ok]; simp, rfl, rfl, by decide, ?_⟩
        intro m r hm
        rcases List.mem_append.mp hm with hm | hm
        · exact htx m r hm
        · simp at hm
      | err e2 =>
        refine ⟨(bcmLoop w).1 ++
          [Ev.sigmask, Ev.closeFd (.err e2), Ev.diag opClose e2],
          by rw [afterLoop_err]; simp, rfl, rfl, by decide, ?_⟩
        intro m r hm
        rcases List.mem_append.mp hm with hm | hm
        · exact htx m r hm
        · simp at hm
    | ioError op e =>
      rw [bcmMain_after w cr (by rw [hx]; intro hc; cases hc)]
      cases cr with
      | ok =>
        refine ⟨(bcmLoop w).1 ++
          [Ev.sigmask, Ev.closeFd .ok, Ev.outLine goodbyeLine],
          by rw [afterLoop_ok]; simp, rfl, rfl, by decide, ?_⟩
        intro m r hm
        rcases List.mem_append.mp hm with hm | hm
        · exact htx m r hm
        · simp at hm
      | err e2 =>
        refine ⟨(bcmLoop w).1 ++
          [Ev.sigmask, Ev.closeFd (.err e2), Ev.diag opClose e2],
          by rw [afterLoop_err]; simp, rfl, rfl, by decide, ?_⟩
        intro m r hm
        rcases List.mem_append.mp hm with hm | hm
        · exact htx m r hm
        · simp at hm

/-- C9 (witness): the command-shape theorem applied to a concrete
one-iteration run. -/
theorem c9_bcm_commands_witness :
    ∃ rest,
      (bcmMain .ok [bcmHaltIter] .ok).1 =
        Ev.writeBcm rxSetupMsg .ok :: rest ∧
      rxSetupMsg.head.opcode = RX_SETUP ∧
      rxSetupMsg.head.can_id = 0x123 ∧
      TX_SEND ≠ RX_SETUP ∧
      (∀ m r, Ev.writeBcm m r ∈ rest →
        m.head.opcode = TX_SEND ∧ m.head.can_id = 0 ∧
        m.head.nframes = 1 ∧ m.frames.length = 1 ∧
        ∀ fr ∈ m.frames, fr.can_id = MSGID_bcm) :=
  c9_bcm_commands .ok [bcmHaltIter] .ok
